import Mathlib

/-!
Shallow embedding of the adaptive level pipeline of
`music-reactive-luminous-clothing` (files `sampling.py` and
`auto_pipeline.py`), over exact rationals.  Python's `round` (banker's
rounding, ties to even) is modelled by `pyRound`, Python's `int()`
(truncation toward zero) by `pyInt`.
-/

/-- Python `round` to an integer: nearest integer, ties to the even one. -/
def pyRound (q : ℚ) : ℤ :=
  if q - ⌊q⌋ < 1/2 then ⌊q⌋
  else if 1/2 < q - ⌊q⌋ then ⌊q⌋ + 1
  else if ⌊q⌋ % 2 = 0 then ⌊q⌋ else ⌊q⌋ + 1

/-- Python `int()` on a float: truncation toward zero. -/
def pyInt (q : ℚ) : ℤ :=
  if 0 ≤ q then ⌊q⌋ else ⌈q⌉

/-- `max(0.0, min(1.0, x))` as written in the sources. -/
def clamp01 (x : ℚ) : ℚ := max 0 (min 1 x)

/-- `max(0, min(8, n))`, the final clamp of `Compressor.process`. -/
def clampLevel (n : ℤ) : ℤ := max 0 (min 8 n)

/-- `LED_COUNT = 8` from `constants.py` / `auto_pipeline.py`. -/
def LED_COUNT : ℤ := 8

/-- `np.min` over a window (the pipeline only calls it on non-empty input). -/
def listMin : List ℚ → ℚ
  | [] => 0
  | x :: xs => xs.foldl min x

/-- `np.max` over a window (the pipeline only calls it on non-empty input). -/
def listMax : List ℚ → ℚ
  | [] => 0
  | x :: xs => xs.foldl max x

/-- `np.percentile` with the default linear interpolation between closest
ranks: position `q/100 * (n-1)` in the sorted data, linearly interpolated. -/
def percentile (xs : List ℚ) (q : ℚ) : ℚ :=
  match List.insertionSort (· ≤ ·) xs with
  | [] => 0
  | y :: ys =>
    let n := (y :: ys).length
    let rank := q * ((n : ℚ) - 1) / 100
    let i := (⌊rank⌋).toNat
    let g := rank - (⌊rank⌋ : ℚ)
    let a := (y :: ys).getD i 0
    let b := (y :: ys).getD (i + 1) a
    a + g * (b - a)

/-- `collections.deque` append with a `maxlen` bound: the oldest entries are
evicted from the front so that at most `maxlen` entries remain. -/
def dequeAppend (maxlen : ℕ) (h : List ℚ) (x : ℚ) : List ℚ :=
  let h' := h ++ [x]
  if maxlen < h'.length then h'.drop (h'.length - maxlen) else h'

/-- `PeakToPeakSampler` from `sampling.py`. -/
structure PeakToPeakSampler where
  double_window : Bool
  prev_min : Option ℚ
  prev_max : Option ℚ
deriving DecidableEq

/-- `PeakToPeakSampler.feed`: `np.min`/`np.max` raise on an empty window, so
the empty case yields no reading and no successor state. -/
def PeakToPeakSampler.feed (s : PeakToPeakSampler) (samples : List ℚ) :
    Option (ℚ × PeakToPeakSampler) :=
  match samples with
  | [] => none
  | x :: xs =>
    let cur_min := listMin (x :: xs)
    let cur_max := listMax (x :: xs)
    let p2p :=
      match s.double_window, s.prev_min, s.prev_max with
      | true, some pmin, some pmax => max cur_max pmax - min cur_min pmin
      | _, _, _ => cur_max - cur_min
    some (p2p, { s with prev_min := some cur_min, prev_max := some cur_max })

/-- `p2p_to_level` from `sampling.py`. -/
def p2p_to_level (p2p floor ceiling : ℚ) : ℤ :=
  if ceiling ≤ floor then 0
  else pyRound (clamp01 ((p2p - floor) / (ceiling - floor)) * (LED_COUNT : ℚ))

/-- `AutoCalibratingSampler` from `auto_pipeline.py`. -/
structure AutoCalibratingSampler where
  double_window : Bool
  percentile_low : ℚ
  percentile_high : ℚ
  min_range : ℚ
  maxlen : ℕ
  history : List ℚ
  prev_min : Option ℚ
  prev_max : Option ℚ
  floor : ℚ
  ceiling : ℚ
deriving DecidableEq

/-- `AutoCalibratingSampler.__init__`: the deque capacity is
`max(int(history_seconds * windows_per_second), 30)`. -/
def AutoCalibratingSampler.init (double_window : Bool)
    (history_seconds windows_per_second percentile_low percentile_high
      min_range : ℚ) : AutoCalibratingSampler :=
  { double_window := double_window
    percentile_low := percentile_low
    percentile_high := percentile_high
    min_range := min_range
    maxlen := (max (pyInt (history_seconds * windows_per_second)) 30).toNat
    history := []
    prev_min := none
    prev_max := none
    floor := 0
    ceiling := min_range }

/-- `AutoCalibratingSampler._recalc`. -/
def AutoCalibratingSampler.recalc (s : AutoCalibratingSampler) :
    AutoCalibratingSampler :=
  if s.history.length < 10 then s
  else
    let fl := percentile s.history s.percentile_low
    let raw_ceil := percentile s.history s.percentile_high
    { s with floor := fl, ceiling := max raw_ceil (fl + s.min_range) }

/-- `AutoCalibratingSampler.feed`: `np.min` raises on an empty window before
any assignment, so the empty case yields no reading and no successor state. -/
def AutoCalibratingSampler.feed (s : AutoCalibratingSampler)
    (samples : List ℚ) : Option (ℚ × AutoCalibratingSampler) :=
  match samples with
  | [] => none
  | x :: xs =>
    let cur_min := listMin (x :: xs)
    let cur_max := listMax (x :: xs)
    let p2p :=
      match s.double_window, s.prev_min, s.prev_max with
      | true, some pmin, some pmax => max cur_max pmax - min cur_min pmin
      | _, _, _ => cur_max - cur_min
    let s1 := { s with prev_min := some cur_min, prev_max := some cur_max,
                       history := dequeAppend s.maxlen s.history p2p }
    some (p2p, s1.recalc)

/-- `Compressor` from `auto_pipeline.py`. -/
structure Compressor where
  threshold : ℤ
  ratio : ℚ
  attack_frames : ℤ
  release_frames : ℤ
  makeup_gain : ℚ
  envelope : ℚ
deriving DecidableEq

/-- `Compressor.__init__`: attack and release frame counts are floored at 1. -/
def Compressor.init (threshold : ℤ) (ratio : ℚ)
    (attack_frames release_frames : ℤ) (makeup_gain : ℚ) : Compressor :=
  { threshold := threshold
    ratio := ratio
    attack_frames := max attack_frames 1
    release_frames := max release_frames 1
    makeup_gain := makeup_gain
    envelope := 0 }

/-- The output value `out` computed by `Compressor.process` before rounding
and clamping, as a function of the (already updated) envelope. -/
def compOut (threshold : ℤ) (ratio makeup_gain : ℚ) (level : ℤ) (env : ℚ) :
    ℚ :=
  (if level ≤ threshold then (level : ℚ)
   else (threshold : ℚ) +
     ((level : ℚ) - (threshold : ℚ)) / (1 + (ratio - 1) * env)) * makeup_gain

/-- `Compressor.process`: updates and clamps the envelope, then computes the
output from the updated envelope, applies makeup gain, rounds and clamps. -/
def Compressor.process (c : Compressor) (level : ℤ) : ℤ × Compressor :=
  let env1 :=
    if c.threshold < level then c.envelope + (1 - c.envelope) / (c.attack_frames : ℚ)
    else c.envelope - c.envelope / (c.release_frames : ℚ)
  let env := max 0 (min 1 env1)
  (clampLevel (pyRound (compOut c.threshold c.ratio c.makeup_gain level env)),
   { c with envelope := env })

/-- `NoiseGate` from `auto_pipeline.py`. -/
structure NoiseGate where
  gate_headroom : ℚ
  hold_frames : ℤ
  ambient_attack : ℚ
  ambient_release : ℚ
  ambient : ℚ
  hold_counter : ℤ
  gate_open : Bool
deriving DecidableEq

/-- `NoiseGate.__init__`. -/
def NoiseGate.init (gate_headroom : ℚ) (hold_frames : ℤ)
    (ambient_attack ambient_release : ℚ) : NoiseGate :=
  { gate_headroom := gate_headroom
    hold_frames := hold_frames
    ambient_attack := ambient_attack
    ambient_release := ambient_release
    ambient := 0
    hold_counter := 0
    gate_open := false }

/-- `NoiseGate.process`. -/
def NoiseGate.process (g : NoiseGate) (p2p : ℚ) (level : ℤ) : ℤ × NoiseGate :=
  let amb :=
    if g.ambient < p2p then g.ambient + (p2p - g.ambient) * g.ambient_attack
    else g.ambient + (p2p - g.ambient) * g.ambient_release
  if amb * g.gate_headroom < p2p then
    (level, { g with ambient := amb, hold_counter := g.hold_frames,
                     gate_open := true })
  else if 0 < g.hold_counter then
    (level, { g with ambient := amb, hold_counter := g.hold_counter - 1,
                     gate_open := true })
  else
    (0, { g with ambient := amb, gate_open := false })

/-- The level mapping inlined in `AutoPipeline.feed` (lines 226–233). -/
def inlineLevelMap (p2p floor ceiling : ℚ) : ℤ :=
  let span := ceiling - floor
  let normalized := if 0 < span then clamp01 ((p2p - floor) / span) else 0
  pyRound (normalized * (LED_COUNT : ℚ))

/-- `AutoPipeline` from `auto_pipeline.py`. -/
structure AutoPipeline where
  sampler : AutoCalibratingSampler
  gate : NoiseGate
  compressor : Option Compressor
  raw_p2p : ℚ
  raw_level : ℤ
  final_level : ℤ
deriving DecidableEq

/-- `AutoPipeline.__init__`, with the fixed sub-component defaults of the
source (`windows_per_second = 66`, `min_range = 0.01`, compressor attack 2 /
release 8, gate ambient attack 0.02 / release 0.005). -/
def AutoPipeline.init (double_window : Bool)
    (history_seconds percentile_low percentile_high : ℚ) (compress : Bool)
    (comp_threshold : ℤ) (comp_ratio comp_makeup gate_headroom : ℚ)
    (gate_hold_frames : ℤ) : AutoPipeline :=
  { sampler := AutoCalibratingSampler.init double_window history_seconds 66
      percentile_low percentile_high (1/100)
    gate := NoiseGate.init gate_headroom gate_hold_frames (1/50) (1/200)
    compressor :=
      if compress then some (Compressor.init comp_threshold comp_ratio 2 8 comp_makeup)
      else none
    raw_p2p := 0
    raw_level := 0
    final_level := 0 }

/-- `AutoPipeline.feed`: sample → map → compress → gate.  An empty window
makes the sampler raise before any assignment, so no state is produced. -/
def AutoPipeline.feed (p : AutoPipeline) (samples : List ℚ) :
    Option (ℤ × AutoPipeline) :=
  match p.sampler.feed samples with
  | none => none
  | some (p2p, sampler1) =>
    let raw_level := inlineLevelMap p2p sampler1.floor sampler1.ceiling
    match p.compressor with
    | some c =>
      let r1 := c.process raw_level
      let r2 := p.gate.process p2p r1.1
      some (r2.1, ⟨sampler1, r2.2, some r1.2, p2p, raw_level, r2.1⟩)
    | none =>
      let r2 := p.gate.process p2p raw_level
      some (r2.1, ⟨sampler1, r2.2, none, p2p, raw_level, r2.1⟩)

/-- `k` successive `NoiseGate.process` calls at `p2p = 0`, input `level`. -/
def gateZeros (g : NoiseGate) (level : ℤ) : ℕ → NoiseGate
  | 0 => g
  | k + 1 => gateZeros ((g.process 0 level).2) level k

/-- Feeding a list of windows through the calibrating sampler in order. -/
def feedAll (s : AutoCalibratingSampler) : List (List ℚ) →
    Option AutoCalibratingSampler
  | [] => some s
  | w :: ws =>
    match s.feed w with
    | none => none
    | some (_, s1) => feedAll s1 ws

/-! ### Helper lemmas about the rounding and clamping primitives -/

theorem pyRound_intCast (n : ℤ) : pyRound (n : ℚ) = n := by
  simp [pyRound]

theorem floor_le_pyRound (q : ℚ) : ⌊q⌋ ≤ pyRound q := by
  unfold pyRound
  split_ifs <;> omega

theorem pyRound_le_floor_add_one (q : ℚ) : pyRound q ≤ ⌊q⌋ + 1 := by
  unfold pyRound
  split_ifs <;> omega

theorem pyRound_nonneg {q : ℚ} (h : 0 ≤ q) : 0 ≤ pyRound q := by
  have h1 := floor_le_pyRound q
  have h2 : 0 ≤ ⌊q⌋ := Int.floor_nonneg.mpr h
  omega

theorem pyRound_le_ceil (q : ℚ) : pyRound q ≤ ⌈q⌉ := by
  have hfc : ⌊q⌋ ≤ ⌈q⌉ := Int.floor_le_ceil q
  have hqc : q ≤ (⌈q⌉ : ℚ) := Int.le_ceil q
  have hfq : (⌊q⌋ : ℚ) ≤ q := Int.floor_le q
  unfold pyRound
  split_ifs with h1 h2 h3
  · exact hfc
  · have : (⌊q⌋ : ℚ) < (⌈q⌉ : ℚ) := by linarith
    have : ⌊q⌋ < ⌈q⌉ := by exact_mod_cast this
    omega
  · exact hfc
  · have : (⌊q⌋ : ℚ) < (⌈q⌉ : ℚ) := by linarith
    have : ⌊q⌋ < ⌈q⌉ := by exact_mod_cast this
    omega

theorem pyRound_le_of_le_int {q : ℚ} {n : ℤ} (h : q ≤ (n : ℚ)) :
    pyRound q ≤ n :=
  le_trans (pyRound_le_ceil q) (Int.ceil_le.mpr h)

theorem pyRound_mono {a b : ℚ} (h : a ≤ b) : pyRound a ≤ pyRound b := by
  rcases lt_or_le ⌊a⌋ ⌊b⌋ with hf | hf
  · calc pyRound a ≤ ⌊a⌋ + 1 := pyRound_le_floor_add_one a
      _ ≤ ⌊b⌋ := by omega
      _ ≤ pyRound b := floor_le_pyRound b
  · have hf' : ⌊a⌋ = ⌊b⌋ := le_antisymm (Int.floor_mono h) hf
    unfold pyRound
    rw [hf']
    split_ifs <;> first | omega | linarith

theorem clamp01_nonneg (x : ℚ) : 0 ≤ clamp01 x := le_max_left 0 _

theorem clamp01_le_one (x : ℚ) : clamp01 x ≤ 1 :=
  max_le (by norm_num) (min_le_left 1 x)

theorem clamp01_mono {x y : ℚ} (h : x ≤ y) : clamp01 x ≤ clamp01 y :=
  max_le_max le_rfl (min_le_min le_rfl h)

theorem clampLevel_nonneg (n : ℤ) : 0 ≤ clampLevel n := le_max_left 0 _

theorem clampLevel_le_eight (n : ℤ) : clampLevel n ≤ 8 :=
  max_le (by norm_num) (min_le_left 8 n)

theorem clampLevel_mono {m n : ℤ} (h : m ≤ n) : clampLevel m ≤ clampLevel n :=
  max_le_max le_rfl (min_le_min le_rfl h)

theorem inlineLevelMap_nonneg (p2p floor ceiling : ℚ) :
    0 ≤ inlineLevelMap p2p floor ceiling := by
  unfold inlineLevelMap
  refine pyRound_nonneg (mul_nonneg ?_ (by norm_num [LED_COUNT]))
  split_ifs
  · exact clamp01_nonneg _
  · exact le_refl 0

theorem inlineLevelMap_le_eight (p2p floor ceiling : ℚ) :
    inlineLevelMap p2p floor ceiling ≤ 8 := by
  unfold inlineLevelMap
  refine pyRound_le_of_le_int (n := 8) ?_
  have h1 : (if 0 < ceiling - floor then
      clamp01 ((p2p - floor) / (ceiling - floor)) else 0) ≤ 1 := by
    split_ifs
    · exact clamp01_le_one _
    · norm_num
  have h0 : (0:ℚ) ≤ (if 0 < ceiling - floor then
      clamp01 ((p2p - floor) / (ceiling - floor)) else 0) := by
    split_ifs
    · exact clamp01_nonneg _
    · norm_num
  have hled : ((LED_COUNT : ℤ) : ℚ) = 8 := by norm_num [LED_COUNT]
  rw [hled]
  push_cast
  nlinarith [h1, h0]

theorem foldl_min_le (a : ℚ) (l : List ℚ) : l.foldl min a ≤ a := by
  induction l generalizing a with
  | nil => exact le_rfl
  | cons y l ih => exact le_trans (ih (min a y)) (min_le_left a y)

theorem le_foldl_max (a : ℚ) (l : List ℚ) : a ≤ l.foldl max a := by
  induction l generalizing a with
  | nil => exact le_rfl
  | cons y l ih => exact le_trans (le_max_left a y) (ih (max a y))

theorem listMin_le_listMax (x : ℚ) (xs : List ℚ) :
    listMin (x :: xs) ≤ listMax (x :: xs) :=
  le_trans (foldl_min_le x xs) (le_foldl_max x xs)

theorem dequeAppend_length (m : ℕ) (h : List ℚ) (x : ℚ) :
    (dequeAppend m h x).length = min (h.length + 1) m := by
  simp only [dequeAppend]
  split_ifs with hc
  · simp only [List.length_drop, List.length_append, List.length_singleton] at hc ⊢
    omega
  · simp only [List.length_append, List.length_singleton] at hc ⊢
    omega

/-! ### Helper lemmas about the calibrating sampler -/

theorem AutoCalibratingSampler.recalc_history (s : AutoCalibratingSampler) :
    s.recalc.history = s.history := by
  unfold AutoCalibratingSampler.recalc
  split_ifs <;> rfl

theorem AutoCalibratingSampler.recalc_min_range (s : AutoCalibratingSampler) :
    s.recalc.min_range = s.min_range := by
  unfold AutoCalibratingSampler.recalc
  split_ifs <;> rfl

theorem AutoCalibratingSampler.recalc_of_short (s : AutoCalibratingSampler)
    (h : s.history.length < 10) : s.recalc = s := by
  unfold AutoCalibratingSampler.recalc
  rw [if_pos h]

theorem AutoCalibratingSampler.recalc_ceiling (s : AutoCalibratingSampler)
    (h : 10 ≤ s.history.length) :
    s.recalc.floor + s.recalc.min_range ≤ s.recalc.ceiling := by
  unfold AutoCalibratingSampler.recalc
  rw [if_neg (by omega)]
  exact le_max_right _ _

/-! ### Helper lemmas about the noise gate -/

/-- Opening call: the reading exceeds the freshly updated ambient level times
the headroom, so the gate opens and the hold counter is reloaded. -/
theorem NoiseGate.process_open (g : NoiseGate) (p2p : ℚ) (l : ℤ)
    (hup : g.ambient < p2p)
    (hbig : (g.ambient + (p2p - g.ambient) * g.ambient_attack) *
      g.gate_headroom < p2p) :
    g.process p2p l =
      (l, { g with ambient := g.ambient + (p2p - g.ambient) * g.ambient_attack,
                   hold_counter := g.hold_frames, gate_open := true }) := by
  simp only [NoiseGate.process, if_pos hup, if_pos hbig]

/-- Zero-reading call while the hold counter is positive: the gate stays open,
the counter is decremented, the ambient level decays. -/
theorem NoiseGate.process_zero_hold (g : NoiseGate) (l : ℤ)
    (hamb : 0 ≤ g.ambient) (hhr : 0 ≤ g.gate_headroom)
    (hrel : g.ambient_release ≤ 1) (hpos : 0 < g.hold_counter) :
    g.process 0 l =
      (l, { g with ambient := g.ambient + (0 - g.ambient) * g.ambient_release,
                   hold_counter := g.hold_counter - 1, gate_open := true }) := by
  have hnew : 0 ≤ g.ambient + (0 - g.ambient) * g.ambient_release := by
    have h1 : 0 ≤ g.ambient * (1 - g.ambient_release) :=
      mul_nonneg hamb (by linarith)
    nlinarith [h1]
  simp only [NoiseGate.process, if_neg (not_lt.mpr hamb),
    if_neg (not_lt.mpr (mul_nonneg hnew hhr)), if_pos hpos]

/-- Zero-reading call with the hold counter exhausted: the gate closes and the
output is 0. -/
theorem NoiseGate.process_zero_closed (g : NoiseGate) (l : ℤ)
    (hamb : 0 ≤ g.ambient) (hhr : 0 ≤ g.gate_headroom)
    (hrel : g.ambient_release ≤ 1) (hz : g.hold_counter ≤ 0) :
    g.process 0 l =
      (0, { g with ambient := g.ambient + (0 - g.ambient) * g.ambient_release,
                   gate_open := false }) := by
  have hnew : 0 ≤ g.ambient + (0 - g.ambient) * g.ambient_release := by
    have h1 : 0 ≤ g.ambient * (1 - g.ambient_release) :=
      mul_nonneg hamb (by linarith)
    nlinarith [h1]
  simp only [NoiseGate.process, if_neg (not_lt.mpr hamb),
    if_neg (not_lt.mpr (mul_nonneg hnew hhr)), if_neg (not_lt.mpr hz)]

/-- Invariant of `k ≤ hold_counter` successive zero-reading calls: parameters
are untouched, the ambient level stays non-negative, the hold counter drops by
exactly `k`, and (for `k > 0`) the gate is still open afterwards. -/
theorem gateZeros_spec (l : ℤ) (k : ℕ) :
    ∀ g : NoiseGate, 0 ≤ g.ambient → 0 ≤ g.gate_headroom →
      g.ambient_release ≤ 1 → (k : ℤ) ≤ g.hold_counter →
      (gateZeros g l k).hold_counter = g.hold_counter - k ∧
      0 ≤ (gateZeros g l k).ambient ∧
      (gateZeros g l k).gate_headroom = g.gate_headroom ∧
      (gateZeros g l k).ambient_release = g.ambient_release ∧
      (0 < k → (gateZeros g l k).gate_open = true) := by
  induction k with
  | zero =>
    intro g hamb hhr hrel _
    exact ⟨by simp [gateZeros], hamb, rfl, rfl, by omega⟩
  | succ k ih =>
    intro g hamb hhr hrel hk
    have hpos : 0 < g.hold_counter := by
      have : (0:ℤ) < (k:ℤ) + 1 := by positivity
      push_cast at hk
      omega
    have hstep := NoiseGate.process_zero_hold g l hamb hhr hrel hpos
    have hg1 : gateZeros g l (k + 1) = gateZeros ((g.process 0 l).2) l k := rfl
    rw [hg1, hstep]
    set g1 : NoiseGate :=
      { g with ambient := g.ambient + (0 - g.ambient) * g.ambient_release,
               hold_counter := g.hold_counter - 1, gate_open := true } with hg1def
    have hamb1 : 0 ≤ g1.ambient := by
      have h1 : 0 ≤ g.ambient * (1 - g.ambient_release) :=
        mul_nonneg hamb (by linarith)
      show 0 ≤ g.ambient + (0 - g.ambient) * g.ambient_release
      nlinarith [h1]
    have hk1 : (k : ℤ) ≤ g1.hold_counter := by
      show (k : ℤ) ≤ g.hold_counter - 1
      push_cast at hk
      omega
    have := ih g1 hamb1 hhr hrel hk1
    refine ⟨?_, this.2.1, this.2.2.1, this.2.2.2.1, ?_⟩
    · rw [this.1]
      show g.hold_counter - 1 - (k : ℤ) = g.hold_counter - ((k : ℤ) + 1)
      omega
    · intro _
      rcases Nat.eq_zero_or_pos k with hk0 | hk0
      · subst hk0
        show g1.gate_open = true
        rfl
      · exact this.2.2.2.2 hk0

theorem pyRound_zero : pyRound 0 = 0 := by norm_num [pyRound]

/-! ### Claim theorems -/

/-- C10: the level mapping inlined in `AutoPipeline.feed` is extensionally
equal to the standalone `p2p_to_level` of `sampling.py`; in particular both
return 0 in the degenerate case `ceiling ≤ floor`. -/
theorem inline_map_eq_p2p_to_level :
    ∀ p2p floor ceiling : ℚ,
      inlineLevelMap p2p floor ceiling = p2p_to_level p2p floor ceiling ∧
      (ceiling ≤ floor → inlineLevelMap p2p floor ceiling = 0 ∧
        p2p_to_level p2p floor ceiling = 0) := by
  intro p2p f c
  have hmain : ∀ h : c ≤ f, inlineLevelMap p2p f c = 0 := by
    intro h
    have hspan : ¬ (0 < c - f) := by linarith
    simp only [inlineLevelMap, if_neg hspan, zero_mul, pyRound_zero]
  constructor
  · by_cases h : c ≤ f
    · rw [hmain h]
      simp only [p2p_to_level, if_pos h]
    · have hspan : 0 < c - f := by
        have := not_le.mp h
        linarith
      simp only [inlineLevelMap, p2p_to_level, if_pos hspan, if_neg h]
  · intro h
    exact ⟨hmain h, by simp only [p2p_to_level, if_pos h]⟩

/-- Witness for C10 at concrete inputs, the degenerate-span hypothesis
discharged at `floor = 3`, `ceiling = 1`. -/
theorem inline_map_eq_p2p_to_level_witness :
    inlineLevelMap 5 1 3 = p2p_to_level 5 1 3 ∧
    (inlineLevelMap 2 3 1 = 0 ∧ p2p_to_level 2 3 1 = 0) :=
  ⟨(inline_map_eq_p2p_to_level 5 1 3).1,
   (inline_map_eq_p2p_to_level 2 3 1).2 (by norm_num)⟩

/-- C7: `p2p_to_level` is monotone in the reading for fixed floor/ceiling,
maps the floor to 0 and the ceiling to 8 whenever the span is positive, and
returns 0 for every reading when the span is degenerate. -/
theorem p2p_to_level_spec :
    (∀ p1 p2 floor ceiling : ℚ, p1 ≤ p2 →
      p2p_to_level p1 floor ceiling ≤ p2p_to_level p2 floor ceiling) ∧
    (∀ floor ceiling : ℚ, floor < ceiling →
      p2p_to_level floor floor ceiling = 0 ∧
      p2p_to_level ceiling floor ceiling = 8) ∧
    (∀ p2p floor ceiling : ℚ, ceiling - floor ≤ 0 →
      p2p_to_level p2p floor ceiling = 0) := by
  refine ⟨?_, ?_, ?_⟩
  · intro p1 p2 f c h
    by_cases hd : c ≤ f
    · simp only [p2p_to_level, if_pos hd]
      exact le_refl 0
    · have hspan : 0 < c - f := by
        have := not_le.mp hd
        linarith
      simp only [p2p_to_level, if_neg hd]
      refine pyRound_mono (mul_le_mul_of_nonneg_right (clamp01_mono ?_)
        (by norm_num [LED_COUNT]))
      exact div_le_div_of_nonneg_right (by linarith) hspan.le
  · intro f c h
    have hd : ¬ (c ≤ f) := not_le.mpr h
    have hspan : (0:ℚ) < c - f := by linarith
    constructor
    · simp only [p2p_to_level, if_neg hd, sub_self, zero_div]
      have hcl : clamp01 0 = 0 := by norm_num [clamp01]
      rw [hcl, zero_mul, pyRound_zero]
    · simp only [p2p_to_level, if_neg hd]
      rw [div_self (ne_of_gt hspan)]
      have hcl : clamp01 1 = 1 := by norm_num [clamp01]
      rw [hcl, one_mul]
      norm_num [LED_COUNT, pyRound]
  · intro p2p f c h
    simp only [p2p_to_level, if_pos (by linarith : c ≤ f)]

/-- Witness for C7, hypotheses discharged at concrete readings and bounds. -/
theorem p2p_to_level_spec_witness :
    p2p_to_level 1 0 4 ≤ p2p_to_level 3 0 4 ∧
    (p2p_to_level 0 0 4 = 0 ∧ p2p_to_level 4 0 4 = 8) ∧
    p2p_to_level 7 5 5 = 0 :=
  ⟨p2p_to_level_spec.1 1 3 0 4 (by norm_num),
   p2p_to_level_spec.2.1 0 4 (by norm_num),
   p2p_to_level_spec.2.2 7 5 5 (by norm_num)⟩

/-- C9: an empty sample window is rejected by every feed entry point: the
trackers and the pipeline produce no reading and no successor state (the
`np.min` call raises before any field is assigned), so in this explicit-state
embedding a failed feed leaves the caller's state untouched. -/
theorem feed_empty_rejected :
    ∀ (t : PeakToPeakSampler) (s : AutoCalibratingSampler) (p : AutoPipeline),
      t.feed [] = none ∧ s.feed [] = none ∧ p.feed [] = none := by
  intro t s p
  exact ⟨rfl, rfl, rfl⟩

/-- C4 counterexample: the claim says the capacity is
`round(history_seconds × windows_per_second)` floored at 30, but the source
uses `int(...)` (truncation).  At `history_seconds = 0.75`,
`windows_per_second = 66` the product is 49.5: the code's capacity is 49
while the claimed rounding formula gives 50. -/
theorem calib_capacity_cex :
    ¬ (((AutoCalibratingSampler.init false (3/4) 66 30 95 (1/100)).maxlen : ℤ)
        = max (pyRound ((3/4) * 66)) 30) := by
  norm_num [AutoCalibratingSampler.init, pyInt, pyRound, max_def]

/-- C4 (amended): the capacity of the calibration history equals
`int(history_seconds × windows_per_second)` — truncation toward zero, not
rounding — with a minimum of 30; appending below capacity grows the history
by one entry, appending at capacity keeps the length and evicts the oldest
entry. -/
theorem calib_capacity (dw : Bool) (hs wps pl ph mr : ℚ) :
    ((AutoCalibratingSampler.init dw hs wps pl ph mr).maxlen : ℤ) =
      max (pyInt (hs * wps)) 30 ∧
    (∀ (m : ℕ) (h : List ℚ) (x : ℚ),
      (dequeAppend m h x).length = min (h.length + 1) m) ∧
    (∀ (m : ℕ) (h : List ℚ) (x : ℚ), h.length = m → 0 < m →
      dequeAppend m h x = h.drop 1 ++ [x]) := by
  refine ⟨?_, dequeAppend_length, ?_⟩
  · have h30 : (0:ℤ) ≤ max (pyInt (hs * wps)) 30 :=
      le_trans (by norm_num) (le_max_right _ 30)
    show (((max (pyInt (hs * wps)) 30).toNat : ℤ)) = max (pyInt (hs * wps)) 30
    exact Int.toNat_of_nonneg h30
  · intro m h x hm hpos
    simp only [dequeAppend]
    rw [if_pos (by simp [hm])]
    have h1 : (h ++ [x]).length - m = 1 := by simp [hm]
    rw [h1, List.drop_append_of_le_length (by omega)]

/-- Witness for C4 at concrete inputs: default configuration capacity 330,
and a concrete eviction at capacity 2. -/
theorem calib_capacity_witness :
    ((AutoCalibratingSampler.init false 5 66 30 95 (1/100)).maxlen : ℤ) =
      max (pyInt (5 * 66)) 30 ∧
    dequeAppend 2 [3, 7] 9 = [7, 9] := by
  constructor
  · exact (calib_capacity false 5 66 30 95 (1/100)).1
  · have h := (calib_capacity false 5 66 30 95 (1/100)).2.2 2 [3, 7] 9
      (by norm_num) (by norm_num)
    simpa using h

/-- C8 counterexample: with dual-window mode on, after a previous window
`[2, -2]`, feeding `[5, -5, 0]` yields `max(5, 2) − min(−5, −2) = 10`, not 7
as the claim computes. -/
theorem peak_to_peak_dual_cex :
    (((PeakToPeakSampler.mk true none none).feed [2, -2]).bind
      (fun r => r.2.feed [5, -5, 0])).map Prod.fst = some 10 ∧
    (((PeakToPeakSampler.mk true none none).feed [2, -2]).bind
      (fun r => r.2.feed [5, -5, 0])).map Prod.fst ≠ some 7 := by
  constructor <;>
  · simp [PeakToPeakSampler.feed, listMin, listMax]
    norm_num [max_def, min_def]

/-- C8 (amended): the tracker's feed returns `cur_max − cur_min` when
dual-window mode is off or no previous window exists, and
`max(cur_max, prev_max) − min(cur_min, prev_min)` when dual-window mode is on
and a previous window exists, always storing the current window's min/max;
the result is non-negative; `feed([5, -5, 0]) = 10` with dual-window off, and
with dual-window on after a previous window `[2, -2]` the window
`[5, -5, 0]` yields 10 (not 7). -/
theorem peak_to_peak_feed_spec :
    (∀ (s : PeakToPeakSampler) (x : ℚ) (xs : List ℚ),
      ∃ p2p s1, s.feed (x :: xs) = some (p2p, s1) ∧
        s1.prev_min = some (listMin (x :: xs)) ∧
        s1.prev_max = some (listMax (x :: xs)) ∧
        s1.double_window = s.double_window ∧
        0 ≤ p2p ∧
        ((s.double_window = false ∨ s.prev_min = none ∨ s.prev_max = none) →
          p2p = listMax (x :: xs) - listMin (x :: xs)) ∧
        (∀ pm pM : ℚ, s.double_window = true → s.prev_min = some pm →
          s.prev_max = some pM →
          p2p = max (listMax (x :: xs)) pM - min (listMin (x :: xs)) pm)) ∧
    ((PeakToPeakSampler.mk false none none).feed [5, -5, 0]).map Prod.fst =
      some 10 ∧
    (((PeakToPeakSampler.mk true none none).feed [2, -2]).bind
      (fun r => r.2.feed [5, -5, 0])).map Prod.fst = some 10 := by
  refine ⟨?_, ?_, ?_⟩
  · intro s x xs
    rcases s with ⟨dw, pmin, pmax⟩
    cases dw <;> rcases pmin with _ | pm0 <;> rcases pmax with _ | pM0 <;>
      refine ⟨_, _, rfl, rfl, rfl, rfl, ?_, fun h => ?_,
        fun pm pM hdw hpm hpM => ?_⟩ <;>
      first
      | exact sub_nonneg.mpr (listMin_le_listMax x xs)
      | exact sub_nonneg.mpr (le_trans (le_trans (min_le_left _ _)
          (listMin_le_listMax x xs)) (le_max_left _ _))
      | rfl
      | exact Bool.noConfusion hdw
      | exact Option.noConfusion hpm
      | exact Option.noConfusion hpM
      | (rcases h with h | h | h
         exacts [Bool.noConfusion h, Option.noConfusion h,
           Option.noConfusion h])
      | (injection hpm with e1
         injection hpM with e2
         subst e1
         subst e2
         rfl)
  · simp [PeakToPeakSampler.feed, listMin, listMax]
    norm_num [max_def, min_def]
  · simp [PeakToPeakSampler.feed, listMin, listMax]
    norm_num [max_def, min_def]

/-- Witness for C8's amended universal part at a concrete sampler and
window, the dual-mode hypotheses discharged concretely. -/
theorem peak_to_peak_feed_spec_witness :
    ∃ p2p s1,
      (PeakToPeakSampler.mk true (some (-2)) (some 2)).feed (5 :: [-5, 0]) =
        some (p2p, s1) ∧
      s1.prev_min = some (listMin (5 :: [-5, 0])) ∧
      s1.prev_max = some (listMax (5 :: [-5, 0])) ∧
      s1.double_window = true ∧
      0 ≤ p2p ∧
      ((true = false ∨ (some (-2) : Option ℚ) = none ∨
          (some (2:ℚ) : Option ℚ) = none) →
        p2p = listMax (5 :: [-5, 0]) - listMin (5 :: [-5, 0])) ∧
      (∀ pm pM : ℚ, true = true →
        (some (-2) : Option ℚ) = some pm → (some (2:ℚ) : Option ℚ) = some pM →
        p2p = max (listMax (5 :: [-5, 0])) pM - min (listMin (5 :: [-5, 0])) pm)
    :=
  peak_to_peak_feed_spec.1 (PeakToPeakSampler.mk true (some (-2)) (some 2))
    5 [-5, 0]

/-- C3 counterexample: the integer output of `Compressor.process` does not
strictly decrease as the envelope rises.  At the default parameters
(threshold 3, ratio 3, attack 2, release 8, makeup gain 1.5) with input
level 4, a compressor whose envelope is 1/2 (strictly above 0) produces the
same output 5 as one whose envelope is 0, because rounding quantizes
5.1 and 5.25 to the same integer. -/
theorem compressor_not_strictly_decreasing_cex :
    (0:ℚ) < 1/2 ∧
    (Compressor.process (Compressor.mk 3 3 2 8 (3/2) 0) 4).1 = 5 ∧
    (Compressor.process (Compressor.mk 3 3 2 8 (3/2) (1/2)) 4).1 = 5 ∧
    ¬ ((Compressor.process (Compressor.mk 3 3 2 8 (3/2) (1/2)) 4).1 <
       (Compressor.process (Compressor.mk 3 3 2 8 (3/2) 0) 4).1) := by
  refine ⟨by norm_num, ?_, ?_, ?_⟩ <;>
  · simp [Compressor.process, compOut, clampLevel]
    norm_num [pyRound, max_def, min_def]

/-- C3 (amended): for a level strictly above the threshold, ratio > 1 and
positive makeup gain, the compressor's pre-quantization output
`(threshold + excess / (1 + (ratio − 1) · envelope)) · makeup_gain` strictly
decreases as the envelope rises within [0, 1] and equals
`(threshold + excess / ratio) · makeup_gain` at envelope 1; the rounded,
clamped integer output is correspondingly non-increasing (but not strictly
decreasing) in the envelope. -/
theorem compressor_out_strict_anti (threshold : ℤ) (ratio makeup_gain : ℚ)
    (level : ℤ) (e1 e2 : ℚ) (hlev : threshold < level) (hr : 1 < ratio)
    (hm : 0 < makeup_gain) (h0 : 0 ≤ e1) (h12 : e1 < e2) (h21 : e2 ≤ 1) :
    compOut threshold ratio makeup_gain level e2 <
      compOut threshold ratio makeup_gain level e1 ∧
    compOut threshold ratio makeup_gain level 1 =
      ((threshold : ℚ) + ((level : ℚ) - (threshold : ℚ)) / ratio) *
        makeup_gain ∧
    clampLevel (pyRound (compOut threshold ratio makeup_gain level e2)) ≤
      clampLevel (pyRound (compOut threshold ratio makeup_gain level e1)) := by
  have hnot : ¬ (level ≤ threshold) := not_le.mpr hlev
  have hE : (0:ℚ) < (level : ℚ) - (threshold : ℚ) := by
    have : (threshold : ℚ) < (level : ℚ) := by exact_mod_cast hlev
    linarith
  have hd1 : (0:ℚ) < 1 + (ratio - 1) * e1 := by nlinarith
  have hd12 : 1 + (ratio - 1) * e1 < 1 + (ratio - 1) * e2 := by nlinarith
  have hmain : compOut threshold ratio makeup_gain level e2 <
      compOut threshold ratio makeup_gain level e1 := by
    unfold compOut
    simp only [if_neg hnot]
    have hdiv := div_lt_div_of_pos_left hE hd1 hd12
    exact mul_lt_mul_of_pos_right (by linarith) hm
  refine ⟨hmain, ?_, clampLevel_mono (pyRound_mono hmain.le)⟩
  unfold compOut
  simp only [if_neg hnot]
  have hden : 1 + (ratio - 1) * 1 = ratio := by ring
  rw [hden]

/-- Witness for C3's amended theorem at the default compressor parameters,
level 4, envelopes 0 and 1/2. -/
theorem compressor_out_strict_anti_witness :
    compOut 3 3 (3/2) 4 (1/2) < compOut 3 3 (3/2) 4 0 ∧
    compOut 3 3 (3/2) 4 1 = ((3 : ℚ) + ((4 : ℚ) - (3 : ℚ)) / 3) * (3/2) ∧
    clampLevel (pyRound (compOut 3 3 (3/2) 4 (1/2))) ≤
      clampLevel (pyRound (compOut 3 3 (3/2) 4 0)) := by
  have h := compressor_out_strict_anti 3 3 (3/2) 4 0 (1/2) (by norm_num)
    (by norm_num) (by norm_num) le_rfl (by norm_num) (by norm_num)
  exact ⟨h.1, by simpa using h.2.1, h.2.2⟩

/-- C6: whenever a feed leaves the history with at least 10 entries, the
recomputed bounds satisfy `ceiling ≥ floor + min_range`, because the ceiling
is taken as the maximum of the high-percentile value and
`floor + min_range`.  The hypotheses state exactly that this feed brings the
history to ≥ 10 entries (9 already recorded, capacity at least 10). -/
theorem calib_ceiling_invariant (s : AutoCalibratingSampler) (x : ℚ)
    (xs : List ℚ) (h9 : 9 ≤ s.history.length) (hm : 10 ≤ s.maxlen) :
    ∃ p2p s1, s.feed (x :: xs) = some (p2p, s1) ∧
      10 ≤ s1.history.length ∧
      s1.floor + s1.min_range ≤ s1.ceiling := by
  refine ⟨_, _, rfl, ?_, AutoCalibratingSampler.recalc_ceiling _ ?_⟩ <;>
  · try rw [AutoCalibratingSampler.recalc_history]
    show 10 ≤ (dequeAppend s.maxlen s.history _).length
    rw [dequeAppend_length]
    omega

/-- Witness for C6: a sampler holding 9 readings, capacity 30; one more feed
reaches 10 entries and establishes the ceiling invariant. -/
theorem calib_ceiling_invariant_witness :
    ∃ p2p s1,
      (AutoCalibratingSampler.mk false 30 95 (1/100) 30
          [1, 2, 3, 4, 5, 6, 7, 8, 9] none none 0 (1/100)).feed (2 :: []) =
        some (p2p, s1) ∧
      10 ≤ s1.history.length ∧
      s1.floor + s1.min_range ≤ s1.ceiling :=
  calib_ceiling_invariant
    (AutoCalibratingSampler.mk false 30 95 (1/100) 30
      [1, 2, 3, 4, 5, 6, 7, 8, 9] none none 0 (1/100)) 2 []
    (by decide) (by decide)

/-- One feed on a non-empty window when the history is still short: floor and
ceiling are untouched, the history grows by at most one entry. -/
theorem AutoCalibratingSampler.feed_cons_short (s : AutoCalibratingSampler)
    (x : ℚ) (xs : List ℚ) (h : s.history.length + 1 < 10) :
    ∃ p2p s1, s.feed (x :: xs) = some (p2p, s1) ∧
      s1.floor = s.floor ∧ s1.ceiling = s.ceiling ∧
      s1.history.length ≤ s.history.length + 1 := by
  have hlen : ∀ q : ℚ, (dequeAppend s.maxlen s.history q).length ≤
      s.history.length + 1 := by
    intro q
    rw [dequeAppend_length]
    omega
  refine ⟨_, _, rfl, ?_, ?_, ?_⟩
  · rw [AutoCalibratingSampler.recalc_of_short]
    show (10:ℕ) > (dequeAppend s.maxlen s.history _).length
    calc (dequeAppend s.maxlen s.history _).length ≤ s.history.length + 1 :=
          hlen _
      _ < 10 := h
  · rw [AutoCalibratingSampler.recalc_of_short]
    show (10:ℕ) > (dequeAppend s.maxlen s.history _).length
    calc (dequeAppend s.maxlen s.history _).length ≤ s.history.length + 1 :=
          hlen _
      _ < 10 := h
  · rw [AutoCalibratingSampler.recalc_history]
    exact hlen _

/-- Feeding any sequence of non-empty windows that keeps the history below
10 entries preserves floor and ceiling. -/
theorem feedAll_short_preserves (ws : List (List ℚ)) :
    ∀ s : AutoCalibratingSampler, (∀ w ∈ ws, w ≠ []) →
      s.history.length + ws.length < 10 →
      ∃ s1, feedAll s ws = some s1 ∧ s1.floor = s.floor ∧
        s1.ceiling = s.ceiling := by
  induction ws with
  | nil =>
    intro s _ _
    exact ⟨s, rfl, rfl, rfl⟩
  | cons w ws ih =>
    intro s hne hlen
    obtain ⟨x, xs, rfl⟩ : ∃ x xs, w = x :: xs := by
      cases w with
      | nil => exact absurd rfl (hne [] (by simp))
      | cons x xs => exact ⟨x, xs, rfl⟩
    have hlen' : s.history.length + 1 < 10 := by
      simp only [List.length_cons] at hlen
      omega
    obtain ⟨p2p, s1, hfeed, hfl, hcl, hlen1⟩ :=
      AutoCalibratingSampler.feed_cons_short s x xs hlen'
    have hred : feedAll s ((x :: xs) :: ws) = feedAll s1 ws := by
      simp only [feedAll, hfeed]
    rw [hred]
    obtain ⟨s2, h2, hfl2, hcl2⟩ := ih s1 (fun v hv => hne v (by simp [hv]))
      (by simp only [List.length_cons] at hlen; omega)
    exact ⟨s2, h2, by rw [hfl2, hfl], by rw [hcl2, hcl]⟩

/-- C5: fewer than 10 recorded readings leave floor and ceiling at their
initialization values: `floor = 0` and `ceiling = min_range`. -/
theorem calib_cold_start (dw : Bool) (hs wps pl ph mr : ℚ)
    (ws : List (List ℚ)) (hlen : ws.length < 10)
    (hne : ∀ w ∈ ws, w ≠ []) :
    ∃ s1, feedAll (AutoCalibratingSampler.init dw hs wps pl ph mr) ws =
      some s1 ∧ s1.floor = 0 ∧ s1.ceiling = mr := by
  obtain ⟨s1, h1, hf, hc⟩ :=
    feedAll_short_preserves ws (AutoCalibratingSampler.init dw hs wps pl ph mr)
      hne (by simp [AutoCalibratingSampler.init]; omega)
  exact ⟨s1, h1, by rw [hf]; rfl, by rw [hc]; rfl⟩

/-- Witness for C5: two non-empty windows fed to a default-configured
sampler leave floor 0 and ceiling 1/100. -/
theorem calib_cold_start_witness :
    ∃ s1, feedAll (AutoCalibratingSampler.init false 5 66 30 95 (1/100))
      [[1, -1], [2]] = some s1 ∧ s1.floor = 0 ∧ s1.ceiling = 1/100 :=
  calib_cold_start false 5 66 30 95 (1/100) [[1, -1], [2]] (by norm_num)
    (by intro w hw
        simp only [List.mem_cons, List.not_mem_nil, or_false] at hw
        rcases hw with rfl | rfl <;> simp)

/-- The gate passes the level through or zeroes it, so it preserves
[0, 8] bounds. -/
theorem NoiseGate.process_fst_bounds (g : NoiseGate) (p2p : ℚ) (level : ℤ)
    (h0 : 0 ≤ level) (h8 : level ≤ 8) :
    0 ≤ (g.process p2p level).1 ∧ (g.process p2p level).1 ≤ 8 := by
  simp only [NoiseGate.process]
  split_ifs <;> first
    | exact ⟨h0, h8⟩
    | exact ⟨le_refl 0, by norm_num⟩

/-- C1: levels are integers in [0, 8] at every stage: the compressor's
rounded, clamped output on any call; and for every pipeline state and
non-empty window, the raw mapped level and the gated final level returned by
`AutoPipeline.feed`. -/
theorem pipeline_level_bounds :
    (∀ (c : Compressor) (level : ℤ),
      0 ≤ (c.process level).1 ∧ (c.process level).1 ≤ 8) ∧
    (∀ (p : AutoPipeline) (w : List ℚ), w ≠ [] →
      ∃ out p1, p.feed w = some (out, p1) ∧
        0 ≤ p1.raw_level ∧ p1.raw_level ≤ 8 ∧
        0 ≤ out ∧ out ≤ 8 ∧ p1.final_level = out) := by
  constructor
  · intro c level
    exact ⟨clampLevel_nonneg _, clampLevel_le_eight _⟩
  · intro p w hw
    obtain ⟨x, xs, rfl⟩ : ∃ x xs, w = x :: xs := by
      cases w with
      | nil => exact absurd rfl hw
      | cons x xs => exact ⟨x, xs, rfl⟩
    rcases p with ⟨sampler, gate, comp, rp, rl, fl⟩
    cases comp with
    | none =>
      refine ⟨_, _, rfl, ?_, ?_, ?_, ?_, rfl⟩
      · exact inlineLevelMap_nonneg _ _ _
      · exact inlineLevelMap_le_eight _ _ _
      · exact (NoiseGate.process_fst_bounds _ _ _
          (inlineLevelMap_nonneg _ _ _) (inlineLevelMap_le_eight _ _ _)).1
      · exact (NoiseGate.process_fst_bounds _ _ _
          (inlineLevelMap_nonneg _ _ _) (inlineLevelMap_le_eight _ _ _)).2
    | some c =>
      refine ⟨_, _, rfl, ?_, ?_, ?_, ?_, rfl⟩
      · exact inlineLevelMap_nonneg _ _ _
      · exact inlineLevelMap_le_eight _ _ _
      · exact (NoiseGate.process_fst_bounds _ _ _
          (clampLevel_nonneg _) (clampLevel_le_eight _)).1
      · exact (NoiseGate.process_fst_bounds _ _ _
          (clampLevel_nonneg _) (clampLevel_le_eight _)).2

/-- Witness for C1: one concrete feed of the default pipeline. -/
theorem pipeline_level_bounds_witness :
    ∃ out p1,
      (AutoPipeline.init false 5 30 95 true 3 3 (3/2) (3/2) 6).feed
        (1 :: [-1]) = some (out, p1) ∧
      0 ≤ p1.raw_level ∧ p1.raw_level ≤ 8 ∧
      0 ≤ out ∧ out ≤ 8 ∧ p1.final_level = out :=
  pipeline_level_bounds.2 (AutoPipeline.init false 5 30 95 true 3 3 (3/2)
    (3/2) 6) (1 :: [-1]) (by simp)

/-- C2: from a gate whose ambient level is non-negative, closed with hold
counter 0, one call whose reading exceeds the (updated) ambient level times
the headroom opens the gate and reloads the hold counter to `hold_frames`;
then each of the following `hold_frames` calls at `p2p = 0` passes the input
level through with the gate still open, and the next call after those
returns 0 with the gate closed. -/
theorem noise_gate_open_hold_close (g : NoiseGate) (p2p : ℚ) (lvl lvl2 : ℤ)
    (hamb : 0 ≤ g.ambient) (hhold0 : g.hold_counter = 0)
    (hclosed : g.gate_open = false) (hhr : 0 ≤ g.gate_headroom)
    (hatt : 0 ≤ g.ambient_attack) (hrel : g.ambient_release ≤ 1)
    (hf : 0 ≤ g.hold_frames) (hup : g.ambient < p2p)
    (hbig : (g.ambient + (p2p - g.ambient) * g.ambient_attack) *
      g.gate_headroom < p2p) :
    (g.process p2p lvl).2.gate_open = true ∧
    (g.process p2p lvl).2.hold_counter = g.hold_frames ∧
    (∀ k : ℕ, (k : ℤ) < g.hold_frames →
      ((gateZeros (g.process p2p lvl).2 lvl2 k).process 0 lvl2).1 = lvl2 ∧
      ((gateZeros (g.process p2p lvl).2 lvl2 k).process 0 lvl2).2.gate_open
        = true) ∧
    (((gateZeros (g.process p2p lvl).2 lvl2 g.hold_frames.toNat).process 0
        lvl2).1 = 0 ∧
     ((gateZeros (g.process p2p lvl).2 lvl2 g.hold_frames.toNat).process 0
        lvl2).2.gate_open = false) := by
  set G1 : NoiseGate :=
    { g with ambient := g.ambient + (p2p - g.ambient) * g.ambient_attack,
             hold_counter := g.hold_frames, gate_open := true } with hG1
  have hopen : g.process p2p lvl = (lvl, G1) :=
    NoiseGate.process_open g p2p lvl hup hbig
  have hambG1 : 0 ≤ G1.ambient := by
    rw [hG1]
    show 0 ≤ g.ambient + (p2p - g.ambient) * g.ambient_attack
    have h1 : 0 ≤ (p2p - g.ambient) * g.ambient_attack :=
      mul_nonneg (by linarith) hatt
    linarith
  have hhr1 : 0 ≤ G1.gate_headroom := hhr
  have hrel1 : G1.ambient_release ≤ 1 := hrel
  have hhold1 : G1.hold_counter = g.hold_frames := rfl
  simp only [hopen]
  refine ⟨by trivial, by trivial, ?_, ?_⟩
  · intro k hk
    obtain ⟨hhc, hambk, hhrk, hrelk, _⟩ := gateZeros_spec lvl2 k G1 hambG1
      hhr1 hrel1 (by rw [hhold1]; omega)
    have hpos : 0 < (gateZeros G1 lvl2 k).hold_counter := by
      rw [hhc, hhold1]
      omega
    have hstep := NoiseGate.process_zero_hold (gateZeros G1 lvl2 k) lvl2
      hambk (by rw [hhrk]; exact hhr1) (by rw [hrelk]; exact hrel1) hpos
    rw [hstep]
    exact ⟨rfl, rfl⟩
  · obtain ⟨hhc, hambk, hhrk, hrelk, _⟩ := gateZeros_spec lvl2
      g.hold_frames.toNat G1 hambG1 hhr1 hrel1 (by rw [hhold1]; omega)
    have hz : (gateZeros G1 lvl2 g.hold_frames.toNat).hold_counter ≤ 0 := by
      rw [hhc, hhold1]
      omega
    have hstep := NoiseGate.process_zero_closed
      (gateZeros G1 lvl2 g.hold_frames.toNat) lvl2 hambk
      (by rw [hhrk]; exact hhr1) (by rw [hrelk]; exact hrel1) hz
    rw [hstep]
    exact ⟨rfl, rfl⟩

/-- Witness for C2 at the default gate parameters (headroom 1.5, hold 6,
ambient attack 0.02, release 0.005), one loud reading 1, input levels 5
then 4. -/
theorem noise_gate_open_hold_close_witness :
    ((NoiseGate.init (3/2) 6 (1/50) (1/200)).process 1 5).2.gate_open =
      true ∧
    ((NoiseGate.init (3/2) 6 (1/50) (1/200)).process 1 5).2.hold_counter =
      (NoiseGate.init (3/2) 6 (1/50) (1/200)).hold_frames ∧
    (∀ k : ℕ,
      (k : ℤ) < (NoiseGate.init (3/2) 6 (1/50) (1/200)).hold_frames →
      ((gateZeros ((NoiseGate.init (3/2) 6 (1/50) (1/200)).process 1 5).2 4
          k).process 0 4).1 = 4 ∧
      ((gateZeros ((NoiseGate.init (3/2) 6 (1/50) (1/200)).process 1 5).2 4
          k).process 0 4).2.gate_open = true) ∧
    (((gateZeros ((NoiseGate.init (3/2) 6 (1/50) (1/200)).process 1 5).2 4
        (NoiseGate.init (3/2) 6 (1/50) (1/200)).hold_frames.toNat).process 0
        4).1 = 0 ∧
     ((gateZeros ((NoiseGate.init (3/2) 6 (1/50) (1/200)).process 1 5).2 4
        (NoiseGate.init (3/2) 6 (1/50) (1/200)).hold_frames.toNat).process 0
        4).2.gate_open = false) :=
  noise_gate_open_hold_close (NoiseGate.init (3/2) 6 (1/50) (1/200)) 1 5 4
    (by norm_num [NoiseGate.init]) rfl rfl (by norm_num [NoiseGate.init])
    (by norm_num [NoiseGate.init]) (by norm_num [NoiseGate.init])
    (by norm_num [NoiseGate.init]) (by norm_num [NoiseGate.init])
    (by norm_num [NoiseGate.init])
